import Mathlib

/-!
Verification of the timesheet-conversion pipeline (`scripts/timesheet_agent.py`).

The pipeline is shallowly embedded: spreadsheet cells become the inductive
type `Cell` (a missing value / NaN is `Cell.null`), a raw worksheet is a
`List (List Cell)`, and each Python function of the core module becomes a
Lean function of the same name.  Python-level value coercions (`str(x)`,
`float(x)`, truthiness of `x or ""`, `.strip()`, `.split()`) are modelled by
the `py*` helpers below; real numbers are modelled by `ℚ`.
-/

namespace Timesheet

/-- Value stored in one spreadsheet cell: missing (pandas NaN), text,
number, or a calendar date. -/
inductive Cell where
  | null
  | str (s : String)
  | num (q : ℚ)
  | date (y m d : Nat)
deriving DecidableEq, Repr

/-- Test for a missing value, as `pd.isna` / `pd.notna` see it. -/
def Cell.isna : Cell → Bool
  | .null => true
  | _ => false

/-- Expected source column labels, in the canonical order of the module
constant of the same name. -/
def EXPECTED_SOURCE_COLUMNS : List String :=
  ["ActivityDescription", "TherapistName", "Date", "PlacementDesc",
   "RateName", "EntryQuantity", "ChargeRate", "TotalCharge"]

/-- Output column labels of the invoice sheet, in declared order. -/
def TARGET_COLUMNS : List String :=
  ["Therapist Name", "Date of Service", "PA Cyber Student ID",
   "Student Name", "Service", "Therapy ONLY Session Minutes on IEP "]

/-- Left-pad a numeral to two digits, as `%m` / `%d` of `strftime` do. -/
def pad2 (n : Nat) : String :=
  if n < 10 then "0" ++ toString n else toString n

/-- Left-pad a numeral to four digits, as `%Y` renders in-range years. -/
def pad4 (n : Nat) : String :=
  if n < 10 then "000" ++ toString n
  else if n < 100 then "00" ++ toString n
  else if n < 1000 then "0" ++ toString n
  else toString n

/-- Python truthiness of a cell value, deciding `x or ""`.  A NaN float is
truthy in Python, the empty string and the number `0` are falsy. -/
def pyTruthy : Cell → Bool
  | .null => true
  | .str s => s != ""
  | .num q => decide (q ≠ 0)
  | .date _ _ _ => true

/-- Decimal text for a numeric cell under `str`; claims never depend on the
exact rendering of non-string cells, only that it is a fixed function. -/
def pyNumStr (q : ℚ) : String :=
  if q.den = 1 then toString q.num ++ ".0" else toString q

/-- Text for a date cell under `str` (timestamp rendering). -/
def pyDateStr (y m d : Nat) : String :=
  pad4 y ++ "-" ++ pad2 m ++ "-" ++ pad2 d ++ " 00:00:00"

/-- Python `str` applied to a cell value; `str(float("nan"))` is `"nan"`. -/
def pyStrCell : Cell → String
  | .null => "nan"
  | .str s => s
  | .num q => pyNumStr q
  | .date y m d => pyDateStr y m d

/-- Python `.strip()`: drop whitespace from both ends of a string. -/
def pyStrip (s : String) : String :=
  ⟨((s.data.dropWhile Char.isWhitespace).reverse.dropWhile Char.isWhitespace).reverse⟩

/-- Helper of `splitWs`: `acc` holds the characters of the current word in
reverse; words are emitted when whitespace or the end of input is reached. -/
def wordsAux : List Char → List Char → List String
  | acc, [] => if acc = [] then [] else [⟨acc.reverse⟩]
  | acc, c :: cs =>
    if c.isWhitespace then
      if acc = [] then wordsAux [] cs else ⟨acc.reverse⟩ :: wordsAux [] cs
    else wordsAux (c :: acc) cs

/-- Python `str.split()` with no argument: split on whitespace runs,
dropping empty pieces. -/
def splitWs (s : String) : List String :=
  wordsAux [] s.data

/-- Character stream of `" ".join`: word contents joined by single space
characters. -/
def joinChars : List (List Char) → List Char
  | [] => []
  | [w] => w
  | w :: ws => w ++ ' ' :: joinChars ws

/-- Python `" ".join(l)`. -/
def joinSpace (l : List String) : String :=
  ⟨joinChars (l.map String.data)⟩

/-- Match of `STUDENT_ID_PATTERN`: exactly two letters then six digits. -/
def isStudentId (s : String) : Bool :=
  match s.data with
  | [a, b, d1, d2, d3, d4, d5, d6] =>
    a.isAlpha && b.isAlpha && d1.isDigit && d2.isDigit && d3.isDigit &&
      d4.isDigit && d5.isDigit && d6.isDigit
  | _ => false

/-- Helper of `dedupe_tokens`, carrying the `seen` set as a list. -/
def dedupeAux (seen : List String) : List String → List String
  | [] => []
  | t :: ts => if t ∈ seen then dedupeAux seen ts else t :: dedupeAux (t :: seen) ts

/-- Remove duplicate tokens while preserving original order
(`dedupe_tokens` in the source). -/
def dedupe_tokens (tokens : List String) : List String :=
  dedupeAux [] tokens

/-- Loop body of `extract_student_fields`: `left` holds the tokens already
passed over; on the first pattern match the side with more tokens (ties to
the left) is deduplicated and joined. -/
def extractLoop : List String → List String → String × String
  | _, [] => ("", "")
  | left, token :: rest =>
    if isStudentId token then
      let right := rest
      let candidate :=
        if right.length > left.length then right
        else if right.length = left.length then left
        else left
      (token, pyStrip (joinSpace (dedupe_tokens candidate)))
    else extractLoop (left ++ [token]) rest

/-- Split an ActivityDescription string into (student id, student name),
as `extract_student_fields` does. -/
def extract_student_fields (activity : String) : String × String :=
  extractLoop [] (splitWs activity)

/-- Errors of the source loader.  The source raises `ValueError` with a
distinct message for each case; `missingColumns` carries the list that the
message enumerates. -/
inductive LoadError where
  | insufficientRows
  | missingColumns (missing : List String)
deriving DecidableEq, Repr

/-- Test whether a row is empty in every cell (`dropna(how="all")` /
`row.isna().all()`). -/
def allEmpty (r : List Cell) : Bool :=
  r.all Cell.isna

/-- Position of the first header cell equal to the given label; models the
pandas label lookup (labels are expected to be unique). -/
def headerIndex (name : String) : List Cell → Option Nat
  | [] => none
  | c :: cs => if c = Cell.str name then some 0 else (headerIndex name cs).map (· + 1)

/-- Expected columns absent from the header row, in expected order. -/
def missingColumnsOf (headers : List Cell) : List String :=
  EXPECTED_SOURCE_COLUMNS.filter (fun c => (headerIndex c headers).isNone)

/-- Restrict a data row to the eight expected columns, reordered into the
canonical sequence (`df_source[EXPECTED_SOURCE_COLUMNS]`).  Cells beyond
the row's length read as missing, matching the rectangular NaN padding of
a parsed sheet. -/
def projectRow (headers : List Cell) (r : List Cell) : List Cell :=
  EXPECTED_SOURCE_COLUMNS.map (fun c => r.getD ((headerIndex c headers).getD 0) Cell.null)

/-- Load the raw worksheet and normalize it (`load_source_dataframe`):
require at least three rows, read headers from row 1, take the body from
row 2 on, drop fully empty rows, require the eight expected columns and
restrict to them in canonical order. -/
def load_source_dataframe (raw : List (List Cell)) : Except LoadError (List (List Cell)) :=
  if raw.length < 3 then .error .insufficientRows
  else if (missingColumnsOf (raw.getD 1 [])).isEmpty then
    .ok (((raw.drop 2).filter (fun r => !allEmpty r)).map (projectRow (raw.getD 1 [])))
  else .error (.missingColumns (missingColumnsOf (raw.getD 1 [])))

/-- Field accessors for a normalized (canonically ordered) source row. -/
def getActivity (r : List Cell) : Cell := r.getD 0 Cell.null

/-- TherapistName cell of a normalized source row. -/
def getTherapist (r : List Cell) : Cell := r.getD 1 Cell.null

/-- Date cell of a normalized source row. -/
def getDate (r : List Cell) : Cell := r.getD 2 Cell.null

/-- PlacementDesc cell of a normalized source row. -/
def getPlacement (r : List Cell) : Cell := r.getD 3 Cell.null

/-- EntryQuantity cell of a normalized source row. -/
def getEntryQty (r : List Cell) : Cell := r.getD 5 Cell.null

/-- Digits to a natural number. -/
def digitsToNat (cs : List Char) : Nat :=
  cs.foldl (fun a c => a * 10 + (c.toNat - 48)) 0

/-- Python `float(s)` on a string, for the decimal/scientific literal forms
(optional sign, digits with optional fraction, optional exponent); other
strings fail, which in Python raises `ValueError`. -/
def parseFloat (s : String) : Option ℚ :=
  let cs := (pyStrip s).data
  let signedTail : ℚ × List Char :=
    match cs with
    | '+' :: t => (1, t)
    | '-' :: t => (-1, t)
    | _ => (1, cs)
  let sign := signedTail.1
  let cs0 := signedTail.2
  let intPart := cs0.takeWhile Char.isDigit
  let cs1 := cs0.dropWhile Char.isDigit
  let fracState : List Char × List Char :=
    match cs1 with
    | '.' :: t => (t.takeWhile Char.isDigit, t.dropWhile Char.isDigit)
    | _ => ([], cs1)
  let fracPart := fracState.1
  let cs2 := fracState.2
  if intPart = [] ∧ fracPart = [] then none
  else
    let mantissa : ℚ :=
      (digitsToNat intPart : ℚ) + (digitsToNat fracPart : ℚ) / ((10 : ℚ) ^ fracPart.length)
    match cs2 with
    | [] => some (sign * mantissa)
    | e :: t =>
      if e = 'e' ∨ e = 'E' then
        let expState : ℤ × List Char :=
          match t with
          | '+' :: u => (1, u)
          | '-' :: u => (-1, u)
          | _ => (1, t)
        let eds := expState.2.takeWhile Char.isDigit
        if eds = [] ∨ expState.2.dropWhile Char.isDigit ≠ [] then none
        else some (sign * mantissa * (10 : ℚ) ^ (expState.1 * (digitsToNat eds : ℤ)))
      else none

/-- Python `float` applied to a cell value: numbers pass through, strings
are parsed, a date raises `TypeError` (so: `none`).  The transformer only
applies it under a `pd.notna` guard, so the `null` case is never reached. -/
def pyFloat : Cell → Option ℚ
  | .num q => some q
  | .str s => parseFloat s
  | .date _ _ _ => none
  | .null => none

/-- Round a rational to the nearest integer, ties to even — the rounding
of Python's builtin `round`. -/
def roundHalfEven (q : ℚ) : ℤ :=
  let f : ℤ := ⌊q⌋
  let r : ℚ := q - (f : ℚ)
  if r < 1 / 2 then f
  else if 1 / 2 < r then f + 1
  else if f % 2 = 0 then f else f + 1

/-- Python `round(x, 2)`. -/
def round2 (q : ℚ) : ℚ :=
  (roundHalfEven (q * 100) : ℚ) / 100

/-- One produced invoice row.  `minutesOnIEP = none` stands for the empty
string written when `EntryQuantity` is missing, keeping absence distinct
from the number `0`. -/
structure TargetRecord where
  therapistName : String
  dateOfService : String
  studentId : String
  studentName : String
  service : String
  minutesOnIEP : Option ℚ
deriving DecidableEq, Repr

/-- Model of `str(x or "").strip()` as applied to therapist and placement
cells. -/
def coalesceStrip (c : Cell) : String :=
  pyStrip (if pyTruthy c then pyStrCell c else "")

/-- Render a date as `mm/dd/yyyy` (`strftime("%m/%d/%Y")`). -/
def formatDate (y m d : Nat) : String :=
  pad2 m ++ "/" ++ pad2 d ++ "/" ++ pad4 y

/-- DateOfService rendering of the transformer: empty for a missing value,
`mm/dd/yyyy` for a genuine date, the stripped `str` form otherwise. -/
def dateOfServiceOf : Cell → String
  | .null => ""
  | .date y m d => formatDate y m d
  | .str s => pyStrip s
  | .num q => pyStrip (pyNumStr q)

/-- MinutesOnIEP computation: empty (`none`) when EntryQuantity is missing,
otherwise `round(float(q) * 60, 2)`; a `float` failure raises, modelled as
the outer `none`. -/
def minutesOf (c : Cell) : Option (Option ℚ) :=
  if c.isna then some none
  else match pyFloat c with
    | some q => some (some (round2 (q * 60)))
    | none => none

/-- Transform one normalized source row into a target record; `none` models
an uncaught exception from the `float` conversion. -/
def buildRecord (r : List Cell) : Option TargetRecord :=
  (minutesOf (getEntryQty r)).map (fun m =>
    ⟨coalesceStrip (getTherapist r),
     dateOfServiceOf (getDate r),
     (extract_student_fields (pyStrCell (getActivity r))).1,
     (extract_student_fields (pyStrCell (getActivity r))).2,
     coalesceStrip (getPlacement r),
     m⟩)

/-- Transform all rows (`build_target_dataframe`): rows empty in every cell
are skipped, each other row yields one record in order; `none` models an
uncaught exception. -/
def build_target_dataframe : List (List Cell) → Option (List TargetRecord)
  | [] => some []
  | r :: rest =>
    if allEmpty r then build_target_dataframe rest
    else do
      let t ← buildRecord r
      let ts ← build_target_dataframe rest
      pure (t :: ts)

/-- State of one worksheet cell as far as the writer touches it: the stored
value and the background fill (`none` is "no fill"). -/
structure SheetCell where
  value : Cell
  fill : Option Nat
deriving DecidableEq, Repr

/-- Worksheet state, addressed by column letter and row number. -/
abbrev Sheet := String → Nat → SheetCell

/-- Column letters receiving the six record fields, in order. -/
def column_letters : List String := ["A", "B", "C", "D", "E", "F"]

/-- Values of a target record in declared field order (`row.tolist()`);
the minutes cell holds the empty string when the hours were missing. -/
def recordFields (t : TargetRecord) : List Cell :=
  [.str t.therapistName, .str t.dateOfService, .str t.studentId,
   .str t.studentName, .str t.service,
   match t.minutesOnIEP with
   | none => .str ""
   | some q => .num q]

/-- Write one value and clear the cell's fill (`cell.value = ...` followed
by `cell.fill = PatternFill(fill_type=None)`). -/
def setCell (ws : Sheet) (col : String) (rowIdx : Nat) (v : Cell) : Sheet :=
  fun c r => if c = col ∧ r = rowIdx then ⟨v, none⟩ else ws c r

/-- Write the listed (column, value) pairs of one record into one row. -/
def writeRow (ws : Sheet) (rowIdx : Nat) : List (String × Cell) → Sheet
  | [] => ws
  | (c, v) :: rest => writeRow (setCell ws c rowIdx v) rowIdx rest

/-- Write the records into consecutive rows starting at `rowIdx`. -/
def writeRowsFrom (ws : Sheet) (rowIdx : Nat) : List TargetRecord → Sheet
  | [] => ws
  | t :: ts => writeRowsFrom (writeRow ws rowIdx (column_letters.zip (recordFields t))) (rowIdx + 1) ts

/-- Populate the copied template (`write_to_template`): records go to
consecutive rows starting at row 7, fields into columns A through F. -/
def write_to_template (ws : Sheet) (records : List TargetRecord) : Sheet :=
  writeRowsFrom ws 7 records

/-- Contents of a file as the pipeline distinguishes them: a parsed raw
table or a workbook with its active sheet. -/
inductive FileData where
  | table (rows : List (List Cell))
  | workbook (ws : Sheet)

/-- File system state: path to contents. -/
abbrev FS := String → Option FileData

/-- Failures of a whole conversion run. -/
inductive ConvError where
  | readSourceError
  | loadError (e : LoadError)
  | buildError
  | readTemplateError
deriving DecidableEq, Repr

/-- Read a path as a raw table. -/
def readTable (fs : FS) (p : String) : Option (List (List Cell)) :=
  match fs p with
  | some (.table t) => some t
  | _ => none

/-- Read a path as a workbook sheet. -/
def readWorkbook (fs : FS) (p : String) : Option Sheet :=
  match fs p with
  | some (.workbook w) => some w
  | _ => none

/-- Store contents at a path, overwriting. -/
def updateFS (fs : FS) (p : String) (d : FileData) : FS :=
  fun q => if q = p then some d else fs q

/-- Whole conversion (`convert_timesheet`): load the source table, build
the records, copy the template to the output path and write the records
into the copy.  The net file-system effect is one overwrite of the output
path with the populated workbook. -/
def convert_timesheet (fs : FS) (source template output : String) : Except ConvError FS :=
  match readTable fs source with
  | none => .error .readSourceError
  | some raw =>
    match load_source_dataframe raw with
    | .error e => .error (.loadError e)
    | .ok rows =>
      match build_target_dataframe rows with
      | none => .error .buildError
      | some recs =>
        match readWorkbook fs template with
        | none => .error .readTemplateError
        | some ws => .ok (updateFS fs output (.workbook (write_to_template ws recs)))

/-- Table used to exercise loader success: shuffled columns, one extra
column, one fully empty data row between two data rows. -/
def demoRaw : List (List Cell) :=
  [[Cell.str "Weekly report"],
   [Cell.str "Extra", Cell.str "Date", Cell.str "TherapistName", Cell.str "ActivityDescription",
    Cell.str "PlacementDesc", Cell.str "RateName", Cell.str "EntryQuantity",
    Cell.str "ChargeRate", Cell.str "TotalCharge"],
   [Cell.num 9, Cell.date 2024 3 5, Cell.str " Ada Lovelace ", Cell.str "Math Tutoring AB123456 Jane Doe",
    Cell.str "Speech", Cell.str "Std", Cell.num (3 / 2), Cell.num 50, Cell.num 75],
   [Cell.null, Cell.null, Cell.null, Cell.null, Cell.null, Cell.null, Cell.null, Cell.null, Cell.null],
   [Cell.null, Cell.str "03/06/2024", Cell.str "Bob", Cell.str "Jane AB123456 Doe Smith",
    Cell.str "OT", Cell.str "Std", Cell.null, Cell.null, Cell.null]]

/-- Raw table refuting claim C2: the data row is empty in all eight
required columns but carries text in the extra ninth column. -/
def c2raw : List (List Cell) :=
  [[Cell.str "Title"],
   (EXPECTED_SOURCE_COLUMNS.map Cell.str) ++ [Cell.str "Extra"],
   (List.replicate 8 Cell.null) ++ [Cell.str "x"]]

/-- Normalized row whose TherapistName and PlacementDesc cells are missing;
used to exhibit the NaN-truthiness slip of the transformer. -/
def nullNameRow : List Cell :=
  [Cell.str "Math AB123456 Jane Doe", Cell.null, Cell.null, Cell.null,
   Cell.null, Cell.num 1, Cell.null, Cell.null]

/-- Normalized row whose EntryQuantity holds text that `float` rejects. -/
def badEntryRow : List Cell :=
  [Cell.str "desc", Cell.str "T", Cell.null, Cell.null,
   Cell.null, Cell.str "two hours", Cell.null, Cell.null]

/-- First index of a token satisfying `p`. -/
def firstMatchIdx (p : String → Bool) : List String → Option Nat
  | [] => none
  | t :: ts => if p t then some 0 else (firstMatchIdx p ts).map (· + 1)

/-- Field extraction as claim C1 words it (spec §4.2): tokenize on
whitespace, take the first token matching the identifier pattern as the
identifier, pick the side with strictly more tokens (the left side on a
tie), drop duplicate tokens keeping first occurrences, and join the
winners with single spaces; with no match both results are empty. -/
def extractSpecAux (tokens : List String) : Option Nat → String × String
  | none => ("", "")
  | some i =>
    (tokens.getD i "",
     joinSpace (dedupe_tokens
       (if (tokens.take i).length < (tokens.drop (i + 1)).length
        then tokens.drop (i + 1)
        else tokens.take i)))

/-- Entry point of the claim-side extraction description. -/
def extractSpec (activity : String) : String × String :=
  extractSpecAux (splitWs activity) (firstMatchIdx isStudentId (splitWs activity))

/-- Tokens with no whitespace characters and at least one character. -/
def wsFree (w : String) : Prop :=
  w.data ≠ [] ∧ ∀ c ∈ w.data, c.isWhitespace = false

/-- Blank worksheet whose every cell starts with a warning fill, so that
clearing the fill is observable. -/
def warnSheet : Sheet := fun _ _ => ⟨Cell.null, some 1⟩

/-- Record used by the writer witnesses. -/
def demoRecord : TargetRecord :=
  ⟨"Ada Lovelace", "03/05/2024", "AB123456", "Jane Doe", "Speech", some 90⟩

/-- Small file system for the conversion witnesses: a source table at
"src", a template workbook at "tpl", nothing elsewhere. -/
def demoFS : FS := fun p =>
  if p = "src" then some (.table demoRaw)
  else if p = "tpl" then some (.workbook warnSheet)
  else none

/-- Variant of `demoFS` carrying stale bytes at the output path, to show
the overwrite does not depend on prior output contents. -/
def demoFS2 : FS := fun p =>
  if p = "out" then some (.table []) else demoFS p

/-- Normalized (canonically ordered) source row used by several witnesses. -/
def demoRow : List Cell :=
  [Cell.str "Math Tutoring AB123456 Jane Doe", Cell.str " Ada Lovelace ",
   Cell.date 2024 3 5, Cell.str "Speech", Cell.str "Std",
   Cell.num (3 / 2), Cell.num 50, Cell.num 75]

/-!  Theorems.  -/

theorem buildRecord_fields (r : List Cell) (t : TargetRecord) (h : buildRecord r = some t) :
    t.therapistName = coalesceStrip (getTherapist r)
    ∧ t.dateOfService = dateOfServiceOf (getDate r)
    ∧ t.studentId = (extract_student_fields (pyStrCell (getActivity r))).1
    ∧ t.studentName = (extract_student_fields (pyStrCell (getActivity r))).2
    ∧ t.service = coalesceStrip (getPlacement r) := by
  unfold buildRecord at h
  cases hm : minutesOf (getEntryQty r) <;> rw [hm] at h
  · simp at h
  · simp only [Option.map_some'] at h
    cases h
    exact ⟨rfl, rfl, rfl, rfl, rfl⟩

/-- Claim C4: for a produced record, a missing EntryQuantity gives the
empty minutes cell (`none`, never the number 0), and a numeric
EntryQuantity `q` gives `round(q * 60, 2)`. -/
theorem minutes_conversion (r : List Cell) (q : ℚ) :
    (getEntryQty r = Cell.null → ∀ t, buildRecord r = some t → t.minutesOnIEP = none)
    ∧ (pyFloat (getEntryQty r) = some q →
        ∃ t, buildRecord r = some t ∧ t.minutesOnIEP = some (round2 (q * 60))) := by
  constructor
  · intro hn t ht
    have hm : minutesOf (getEntryQty r) = some none := by
      rw [hn]; rfl
    unfold buildRecord at ht
    rw [hm] at ht
    simp only [Option.map_some'] at ht
    cases ht
    rfl
  · intro hq
    have hnn : (getEntryQty r).isna = false := by
      cases hcell : getEntryQty r
      · rw [hcell] at hq; simp [pyFloat] at hq
      all_goals rfl
    have hm : minutesOf (getEntryQty r) = some (some (round2 (q * 60))) := by
      unfold minutesOf
      rw [hnn, hq]
      rfl
    exact ⟨⟨coalesceStrip (getTherapist r), dateOfServiceOf (getDate r),
      (extract_student_fields (pyStrCell (getActivity r))).1,
      (extract_student_fields (pyStrCell (getActivity r))).2,
      coalesceStrip (getPlacement r), some (round2 (q * 60))⟩,
      by unfold buildRecord; rw [hm]; rfl, rfl⟩

/-- Witness for C4 at a concrete row: 1.5 logged hours become 90 minutes. -/
theorem minutes_conversion_check :
    (∃ t, buildRecord demoRow = some t ∧ t.minutesOnIEP = some (round2 ((3 / 2) * 60)))
    ∧ round2 ((3 / 2 : ℚ) * 60) = 90 :=
  ⟨(minutes_conversion demoRow (3 / 2)).2 rfl, by norm_num [round2, roundHalfEven]⟩

/-- Claim C5: DateOfService is empty for a missing date, `mm/dd/yyyy` for a
genuine date value, and the stripped string form for a text date. -/
theorem date_of_service_rendering (r : List Cell) (t : TargetRecord)
    (h : buildRecord r = some t) :
    (getDate r = Cell.null → t.dateOfService = "")
    ∧ (∀ y m d, getDate r = Cell.date y m d → t.dateOfService = formatDate y m d)
    ∧ (∀ s, getDate r = Cell.str s → t.dateOfService = pyStrip s) := by
  have hd := (buildRecord_fields r t h).2.1
  refine ⟨?_, ?_, ?_⟩
  · intro hc; rw [hd, hc]; rfl
  · intro y m d hc; rw [hd, hc]; rfl
  · intro s hc; rw [hd, hc]; rfl

/-- Witness for C5 at a concrete row: date 2024-03-05 renders 03/05/2024. -/
theorem date_of_service_check :
    formatDate 2024 3 5 = "03/05/2024"
    ∧ (buildRecord demoRow).map TargetRecord.dateOfService = some "03/05/2024" := by
  obtain ⟨t, ht⟩ : ∃ t, buildRecord demoRow = some t := ⟨_, rfl⟩
  have hdos := (date_of_service_rendering demoRow t ht).2.1 2024 3 5 (by decide)
  exact ⟨rfl, by rw [ht, Option.map_some', hdos]; rfl⟩

theorem load_ok_shape (raw rows : List (List Cell))
    (h : load_source_dataframe raw = .ok rows) :
    rows = ((raw.drop 2).filter (fun r => !allEmpty r)).map (projectRow (raw.getD 1 [])) := by
  unfold load_source_dataframe at h
  split at h
  · cases h
  · split at h
    · cases h; rfl
    · cases h

/-- Claim C7: a successful load returns the data body (rows from index 2),
with fully empty rows removed in order, each row projected onto the eight
required columns in canonical sequence. -/
theorem loader_success_shape (raw rows : List (List Cell))
    (h : load_source_dataframe raw = .ok rows) :
    rows = ((raw.drop 2).filter (fun r => !allEmpty r)).map (projectRow (raw.getD 1 [])) :=
  load_ok_shape raw rows h

/-- Witness for C7 on a table with shuffled columns, one extra column and
one fully empty row. -/
theorem loader_success_shape_check :
    load_source_dataframe demoRaw = Except.ok
      (((demoRaw.drop 2).filter (fun r => !allEmpty r)).map (projectRow (demoRaw.getD 1 []))) := by
  obtain ⟨rows, hr⟩ : ∃ rows, load_source_dataframe demoRaw = .ok rows := ⟨_, rfl⟩
  rw [hr, loader_success_shape demoRaw rows hr]

/-- Claim C3: the loader fails with the insufficient-rows error exactly on
tables of fewer than three rows, fails with the missing-columns error
exactly when some required label is absent from header row 1 (carrying the
full list of absent labels), and succeeds otherwise. -/
theorem loader_error_conditions (raw : List (List Cell)) :
    (load_source_dataframe raw = .error .insufficientRows ↔ raw.length < 3)
    ∧ (∀ miss, load_source_dataframe raw = .error (.missingColumns miss) ↔
        3 ≤ raw.length ∧ miss = missingColumnsOf (raw.getD 1 []) ∧ miss ≠ [])
    ∧ ((∃ rows, load_source_dataframe raw = .ok rows) ↔
        3 ≤ raw.length ∧ missingColumnsOf (raw.getD 1 []) = []) := by
  by_cases hlen : raw.length < 3
  · refine ⟨?_, ?_, ?_⟩
    · simp only [load_source_dataframe, if_pos hlen]
      exact iff_of_true trivial hlen
    · intro miss
      simp only [load_source_dataframe, if_pos hlen]
      constructor
      · intro h; cases h
      · intro h; omega
    · simp only [load_source_dataframe, if_pos hlen]
      constructor
      · rintro ⟨rows, h⟩; cases h
      · intro h; omega
  · by_cases hEmpty : (missingColumnsOf (raw.getD 1 [])).isEmpty = true
    · have hmiss : missingColumnsOf (raw.getD 1 []) = [] := List.isEmpty_iff.mp hEmpty
      refine ⟨?_, ?_, ?_⟩
      · simp only [load_source_dataframe, if_neg hlen, if_pos hEmpty]
        constructor
        · intro h; cases h
        · intro h; omega
      · intro miss
        simp only [load_source_dataframe, if_neg hlen, if_pos hEmpty]
        constructor
        · intro h; cases h
        · rintro ⟨-, rfl, hne⟩; exact absurd hmiss hne
      · simp only [load_source_dataframe, if_neg hlen, if_pos hEmpty]
        exact ⟨fun _ => ⟨by omega, hmiss⟩, fun _ => ⟨_, rfl⟩⟩
    · have hmiss : missingColumnsOf (raw.getD 1 []) ≠ [] := fun h =>
        hEmpty (List.isEmpty_iff.mpr h)
      refine ⟨?_, ?_, ?_⟩
      · simp only [load_source_dataframe, if_neg hlen, if_neg hEmpty]
        constructor
        · intro h; cases h
        · intro h; omega
      · intro miss
        simp only [load_source_dataframe, if_neg hlen, if_neg hEmpty]
        constructor
        · intro h
          cases h
          exact ⟨by omega, rfl, hmiss⟩
        · rintro ⟨-, rfl, -⟩; rfl
      · simp only [load_source_dataframe, if_neg hlen, if_neg hEmpty]
        constructor
        · rintro ⟨rows, h⟩; cases h
        · rintro ⟨-, h⟩; exact absurd h hmiss

/-- Witness for C3: a three-row table whose header carries only the Date
label fails naming the seven other required columns. -/
theorem loader_error_conditions_check :
    load_source_dataframe [[Cell.str "T"], [Cell.str "Date"], [Cell.str "x"]]
      = .error (.missingColumns ["ActivityDescription", "TherapistName", "PlacementDesc",
          "RateName", "EntryQuantity", "ChargeRate", "TotalCharge"]) :=
  ((loader_error_conditions _).2.1 _).mpr ⟨by decide, by decide, by decide⟩

/-- Claim C8 (refuted by the code): a missing TherapistName or
PlacementDesc cell yields the literal string "nan", not the empty string —
`x or ""` keeps a NaN because NaN is truthy, and `str` then renders "nan". -/
theorem therapist_null_yields_nan :
    (buildRecord nullNameRow).map TargetRecord.therapistName = some "nan"
    ∧ (buildRecord nullNameRow).map TargetRecord.service = some "nan"
    ∧ pyTruthy Cell.null = true ∧ pyStrCell Cell.null = "nan" := by decide

theorem writeRow_other_row (l : List (String × Cell)) (ws : Sheet) (rowIdx : Nat)
    (c : String) (r : Nat) (h : r ≠ rowIdx) : writeRow ws rowIdx l c r = ws c r := by
  induction l generalizing ws with
  | nil => rfl
  | cons p rest ih =>
    obtain ⟨pc, pv⟩ := p
    rw [writeRow, ih]
    simp [setCell, h]

theorem writeRowsFrom_lower (ts : List TargetRecord) (ws : Sheet) (rowIdx : Nat)
    (c : String) (r : Nat) (h : r < rowIdx) : writeRowsFrom ws rowIdx ts c r = ws c r := by
  induction ts generalizing ws rowIdx with
  | nil => rfl
  | cons t rest ih =>
    rw [writeRowsFrom, ih _ (rowIdx + 1) (by omega)]
    exact writeRow_other_row _ _ _ _ _ (by omega)

theorem writeRow_cell (ws : Sheet) (rowIdx : Nat) (t : TargetRecord) (j : Nat) (hj : j < 6) :
    writeRow ws rowIdx (column_letters.zip (recordFields t)) (column_letters.getD j "") rowIdx
      = ⟨(recordFields t).getD j Cell.null, none⟩ := by
  interval_cases j <;>
    simp [column_letters, recordFields, writeRow, setCell]

theorem writeRowsFrom_cell (ts : List TargetRecord) (ws : Sheet) (rowIdx i j : Nat)
    (t : TargetRecord) (hi : ts[i]? = some t) (hj : j < 6) :
    writeRowsFrom ws rowIdx ts (column_letters.getD j "") (rowIdx + i)
      = ⟨(recordFields t).getD j Cell.null, none⟩ := by
  induction ts generalizing ws rowIdx i with
  | nil => simp at hi
  | cons hd rest ih =>
    cases i with
    | zero =>
      rw [List.getElem?_cons_zero] at hi
      cases hi
      rw [writeRowsFrom, writeRowsFrom_lower _ _ _ _ _ (by omega)]
      simpa using writeRow_cell ws rowIdx t j hj
    | succ i' =>
      rw [List.getElem?_cons_succ] at hi
      rw [writeRowsFrom]
      have harith : rowIdx + (i' + 1) = (rowIdx + 1) + i' := by omega
      rw [harith]
      exact ih _ (rowIdx + 1) i' hi

/-- Claim C6: the template writer puts record `i` into sheet row `7 + i`,
its six fields into columns A through F in declared field order, and each
written cell ends with its background fill cleared. -/
theorem writer_places_records (records : List TargetRecord) (ws : Sheet) (i j : Nat)
    (t : TargetRecord) (hi : records[i]? = some t) (hj : j < 6) :
    write_to_template ws records (column_letters.getD j "") (7 + i)
      = ⟨(recordFields t).getD j Cell.null, none⟩ := by
  unfold write_to_template
  exact writeRowsFrom_cell records ws 7 i j t hi hj

/-- Witness for C6: the first record's first field lands in cell A7 of a
sheet whose cells all started with a warning fill. -/
theorem writer_places_records_check :
    write_to_template warnSheet [demoRecord] (column_letters.getD 0 "") (7 + 0)
      = ⟨(recordFields demoRecord).getD 0 Cell.null, none⟩ :=
  writer_places_records [demoRecord] warnSheet 0 0 demoRecord rfl (by omega)

theorem entry_null_of_allEmpty (r : List Cell) (h : allEmpty r = true) :
    getEntryQty r = Cell.null := by
  unfold getEntryQty
  rw [List.getD_eq_getElem?_getD]
  cases hk : r[5]? with
  | none => rfl
  | some c =>
    have hc : c ∈ r := List.getElem?_mem hk
    have hna := (List.all_eq_true.mp h) c hc
    cases c
    · rfl
    all_goals simp [Cell.isna] at hna

/-- Claim C10: with every non-null EntryQuantity convertible to a number
the transformer is total, and any surviving row whose non-null
EntryQuantity the `float` conversion rejects makes the whole transformer
raise, producing no record set. -/
theorem entry_quantity_totality (rows : List (List Cell)) :
    ((∀ r ∈ rows, getEntryQty r = Cell.null ∨ ∃ q, pyFloat (getEntryQty r) = some q) →
      ∃ recs, build_target_dataframe rows = some recs)
    ∧ (∀ r ∈ rows, getEntryQty r ≠ Cell.null → pyFloat (getEntryQty r) = none →
        build_target_dataframe rows = none) := by
  induction rows with
  | nil => exact ⟨fun _ => ⟨[], rfl⟩, by simp⟩
  | cons hd rest ih =>
    constructor
    · intro hall
      obtain ⟨recs, hrecs⟩ := ih.1 (fun r hr => hall r (List.mem_cons_of_mem _ hr))
      by_cases he : allEmpty hd = true
      · exact ⟨recs, by rw [build_target_dataframe, if_pos he]; exact hrecs⟩
      · have hhd := hall hd (List.mem_cons_self _ _)
        have hm : ∃ m, minutesOf (getEntryQty hd) = some m := by
          rcases hhd with hnull | ⟨q, hq⟩
          · exact ⟨none, by rw [hnull]; rfl⟩
          · have hnn : (getEntryQty hd).isna = false := by
              cases hc : getEntryQty hd
              · rw [hc] at hq; simp [pyFloat] at hq
              all_goals rfl
            exact ⟨some (round2 (q * 60)), by simp [minutesOf, hnn, hq]⟩
        obtain ⟨m, hm⟩ := hm
        have hb : buildRecord hd = some
            ⟨coalesceStrip (getTherapist hd), dateOfServiceOf (getDate hd),
             (extract_student_fields (pyStrCell (getActivity hd))).1,
             (extract_student_fields (pyStrCell (getActivity hd))).2,
             coalesceStrip (getPlacement hd), m⟩ := by
          unfold buildRecord
          rw [hm]
          rfl
        refine ⟨⟨coalesceStrip (getTherapist hd), dateOfServiceOf (getDate hd),
             (extract_student_fields (pyStrCell (getActivity hd))).1,
             (extract_student_fields (pyStrCell (getActivity hd))).2,
             coalesceStrip (getPlacement hd), m⟩ :: recs, ?_⟩
        rw [build_target_dataframe, if_neg he]
        simp [hb, hrecs]
    · intro r hr hne hnone
      rcases List.mem_cons.mp hr with rfl | hr'
      · have hae : allEmpty r = false := by
          cases hv : allEmpty r
          · rfl
          · exact absurd (entry_null_of_allEmpty r hv) hne
        have hnn : (getEntryQty r).isna = false := by
          cases hc : getEntryQty r
          · exact absurd hc hne
          all_goals rfl
        have hb : buildRecord r = none := by
          have hm0 : minutesOf (getEntryQty r) = none := by
            simp [minutesOf, hnn, hnone]
          unfold buildRecord
          rw [hm0]
          rfl
        rw [build_target_dataframe, if_neg (by rw [hae]; exact Bool.false_ne_true)]
        simp only [bind, Option.bind]
        rw [hb]
      · have hrest := ih.2 r hr' hne hnone
        rw [build_target_dataframe]
        by_cases hae : allEmpty hd = true
        · rw [if_pos hae]; exact hrest
        · rw [if_neg hae]
          simp only [bind, Option.bind]
          cases buildRecord hd
          · rfl
          · rw [hrest]

/-- Witness for C10: a row with textual hours aborts the transformer,
while numeric hours let it succeed. -/
theorem entry_quantity_totality_check :
    build_target_dataframe [badEntryRow] = none
    ∧ ∃ recs, build_target_dataframe [demoRow] = some recs :=
  ⟨(entry_quantity_totality [badEntryRow]).2 badEntryRow (by decide) (by decide) (by decide),
   (entry_quantity_totality [demoRow]).1 (by
      intro r hr
      rw [List.mem_singleton] at hr
      subst hr
      exact Or.inr ⟨3 / 2, rfl⟩)⟩

theorem convert_output_form (fs : FS) (s tp o : String) (g : FS)
    (h : convert_timesheet fs s tp o = .ok g) :
    ∃ d, g = updateFS fs o d := by
  unfold convert_timesheet at h
  split at h
  · cases h
  · split at h
    · cases h
    · split at h
      · cases h
      · split at h
        · cases h
        · cases h
          exact ⟨_, rfl⟩

/-- Claim C9: the conversion is deterministic in the source and template
contents — two runs over file systems agreeing on the source and template
paths produce the same bytes at the output path — and re-running on the
produced state overwrites the destination with the same contents. -/
theorem convert_deterministic (fs1 fs2 : FS) (s tp o : String)
    (hs : fs1 s = fs2 s) (ht : fs1 tp = fs2 tp) :
    ((convert_timesheet fs1 s tp o).map (fun g => g o)
        = (convert_timesheet fs2 s tp o).map (fun g => g o))
    ∧ (∀ g, o ≠ s → o ≠ tp → convert_timesheet fs1 s tp o = .ok g →
        (convert_timesheet g s tp o).map (fun g2 => g2 o) = .ok (g o)) := by
  have key : ∀ fsA fsB : FS, fsA s = fsB s → fsA tp = fsB tp →
      (convert_timesheet fsA s tp o).map (fun g => g o)
        = (convert_timesheet fsB s tp o).map (fun g => g o) := by
    intro fsA fsB hs' ht'
    unfold convert_timesheet
    rw [show readTable fsA s = readTable fsB s from by unfold readTable; rw [hs']]
    rw [show readWorkbook fsA tp = readWorkbook fsB tp from by unfold readWorkbook; rw [ht']]
    split
    · rfl
    · split
      · rfl
      · split
        · rfl
        · split
          · rfl
          · simp [Except.map, updateFS]
  refine ⟨key fs1 fs2 hs ht, ?_⟩
  intro g hos hot hok
  obtain ⟨d, hg⟩ := convert_output_form fs1 s tp o g hok
  have hgs : g s = fs1 s := by
    rw [hg]
    unfold updateFS
    rw [if_neg (fun hc => hos hc.symm)]
  have hgt : g tp = fs1 tp := by
    rw [hg]
    unfold updateFS
    rw [if_neg (fun hc => hot hc.symm)]
  calc (convert_timesheet g s tp o).map (fun g2 => g2 o)
      = (convert_timesheet fs1 s tp o).map (fun g2 => g2 o) := key g fs1 hgs hgt
    _ = .ok (g o) := by rw [hok]; rfl

/-- Witness for C9: two file systems differing only at the output path
yield the same output workbook, and re-running the conversion on the
produced state rewrites the same contents. -/
theorem convert_deterministic_check :
    ((convert_timesheet demoFS "src" "tpl" "out").map (fun g => g "out")
      = (convert_timesheet demoFS2 "src" "tpl" "out").map (fun g => g "out"))
    ∧ ∃ g, convert_timesheet demoFS "src" "tpl" "out" = .ok g
        ∧ (convert_timesheet g "src" "tpl" "out").map (fun g2 => g2 "out") = .ok (g "out") := by
  refine ⟨(convert_deterministic demoFS demoFS2 "src" "tpl" "out" rfl rfl).1, ?_⟩
  obtain ⟨g, hg⟩ : ∃ g, convert_timesheet demoFS "src" "tpl" "out" = .ok g := ⟨_, rfl⟩
  exact ⟨g, hg,
    (convert_deterministic demoFS demoFS "src" "tpl" "out" rfl rfl).2 g
      (by decide) (by decide) hg⟩

theorem build_length (rows : List (List Cell)) (recs : List TargetRecord)
    (h : build_target_dataframe rows = some recs) :
    recs.length = (rows.filter (fun r => !allEmpty r)).length := by
  induction rows generalizing recs with
  | nil =>
    cases h
    rfl
  | cons hd rest ih =>
    by_cases he : allEmpty hd = true
    · rw [build_target_dataframe, if_pos he] at h
      rw [List.filter_cons_of_neg (by rw [he]; exact fun hc => Bool.false_ne_true hc)]
      exact ih recs h
    · have he' : allEmpty hd = false := by
        cases hv : allEmpty hd
        · rfl
        · exact absurd hv he
      rw [build_target_dataframe, if_neg he] at h
      simp only [bind, Option.bind] at h
      cases hb : buildRecord hd <;> rw [hb] at h
      · cases h
      · cases hrest : build_target_dataframe rest <;> rw [hrest] at h
        · cases h
        · cases h
          rw [List.filter_cons_of_pos (by rw [he']; rfl)]
          simp [ih _ hrest]

theorem proj_allEmpty (hs : List Cell) (r : List Cell) (h : allEmpty r = true) :
    allEmpty (projectRow hs r) = true := by
  unfold allEmpty projectRow
  rw [List.all_eq_true]
  intro c hc
  rw [List.mem_map] at hc
  obtain ⟨name, -, rfl⟩ := hc
  rw [List.getD_eq_getElem?_getD]
  cases hk : r[(headerIndex name hs).getD 0]? with
  | none => rfl
  | some c' =>
    have hc' : c' ∈ r := List.getElem?_mem hk
    exact (List.all_eq_true.mp h) c' hc'

theorem proj_filter_collapse (hs : List Cell) (r : List Cell) :
    (!allEmpty (projectRow hs r) && !allEmpty r) = !allEmpty (projectRow hs r) := by
  cases hr : allEmpty r
  · simp
  · rw [proj_allEmpty hs r hr]
    simp

/-- Counterexample to claim C2: a data row empty in all eight required
columns but non-empty in an extra column counts as a non-empty source row,
survives the loader, yet yields no target record. -/
theorem record_count_counterexample :
    load_source_dataframe c2raw = .ok [List.replicate 8 Cell.null]
    ∧ build_target_dataframe [List.replicate 8 Cell.null] = some []
    ∧ ((c2raw.drop 2).filter (fun r => !allEmpty r)).length = 1 :=
  ⟨rfl, rfl, rfl⟩

theorem loader_survivors (raw rows : List (List Cell))
    (h1 : load_source_dataframe raw = .ok rows) :
    rows.filter (fun r => !allEmpty r)
      = ((raw.drop 2).filter
          (fun r => !allEmpty (projectRow (raw.getD 1 []) r))).map
        (projectRow (raw.getD 1 [])) := by
  rw [load_ok_shape raw rows h1, List.filter_map, List.filter_filter]
  simp only [Function.comp]
  have hfun : (fun a => !allEmpty (projectRow (raw.getD 1 []) a) && !allEmpty a)
      = fun a => !allEmpty (projectRow (raw.getD 1 []) a) := by
    funext r
    exact proj_filter_collapse _ r
  rw [hfun]

theorem build_pointwise (rows : List (List Cell)) (recs : List TargetRecord)
    (h : build_target_dataframe rows = some recs) :
    ∀ i : Nat, ((rows.filter (fun r => !allEmpty r))[i]?).bind buildRecord = recs[i]? := by
  induction rows generalizing recs with
  | nil =>
    cases h
    intro i
    rfl
  | cons hd rest ih =>
    by_cases he : allEmpty hd = true
    · rw [build_target_dataframe, if_pos he] at h
      rw [List.filter_cons_of_neg (by rw [he]; exact fun hc => Bool.false_ne_true hc)]
      exact ih recs h
    · have he' : allEmpty hd = false := by
        cases hv : allEmpty hd
        · rfl
        · exact absurd hv he
      rw [build_target_dataframe, if_neg he] at h
      simp only [bind, Option.bind] at h
      cases hb : buildRecord hd <;> rw [hb] at h
      · cases h
      · cases hrest : build_target_dataframe rest <;> rw [hrest] at h
        · cases h
        · cases h
          rw [List.filter_cons_of_pos (by rw [he']; rfl)]
          intro i
          cases i with
          | zero =>
            rw [List.getElem?_cons_zero, List.getElem?_cons_zero]
            exact hb
          | succ i' =>
            rw [List.getElem?_cons_succ, List.getElem?_cons_succ]
            exact ih _ hrest i'

/-- Claim C2 (amended): the number of produced target records equals the
number of source data rows (index 2 on) whose restriction to the eight
required columns is not entirely empty, and each such surviving row yields
exactly one record, in order: the i-th record is the one built from the
i-th surviving row's projection. -/
theorem record_count_amended (raw rows : List (List Cell)) (recs : List TargetRecord)
    (h1 : load_source_dataframe raw = .ok rows)
    (h2 : build_target_dataframe rows = some recs) :
    recs.length = ((raw.drop 2).filter
      (fun r => !allEmpty (projectRow (raw.getD 1 []) r))).length
    ∧ ∀ i : Nat,
      (((((raw.drop 2).filter
          (fun r => !allEmpty (projectRow (raw.getD 1 []) r))).map
            (projectRow (raw.getD 1 [])))[i]?).bind buildRecord) = recs[i]? := by
  have hsurv := loader_survivors raw rows h1
  constructor
  · rw [build_length rows recs h2, hsurv, List.length_map]
  · intro i
    rw [← hsurv]
    exact build_pointwise rows recs h2 i

/-- Witness for C2 (amended) on a table with one fully empty row, two rows
carrying data in required columns, and an extra column: two records come
out, and record 0 is built from surviving projected row 0. -/
theorem record_count_amended_check :
    ((demoRaw.drop 2).filter
      (fun r => !allEmpty (projectRow (demoRaw.getD 1 []) r))).length = 2
    ∧ ∃ recs, load_source_dataframe demoRaw
          = .ok (((demoRaw.drop 2).filter (fun r => !allEmpty r)).map
              (projectRow (demoRaw.getD 1 [])))
        ∧ build_target_dataframe (((demoRaw.drop 2).filter (fun r => !allEmpty r)).map
            (projectRow (demoRaw.getD 1 []))) = some recs
        ∧ recs.length = 2
        ∧ (((((demoRaw.drop 2).filter
            (fun r => !allEmpty (projectRow (demoRaw.getD 1 []) r))).map
              (projectRow (demoRaw.getD 1 [])))[0]?).bind buildRecord) = recs[0]? := by
  refine ⟨rfl, ?_⟩
  obtain ⟨recs, h2⟩ : ∃ recs, build_target_dataframe
      (((demoRaw.drop 2).filter (fun r => !allEmpty r)).map
        (projectRow (demoRaw.getD 1 []))) = some recs := ⟨_, rfl⟩
  obtain ⟨hlen, hpt⟩ := record_count_amended demoRaw _ recs rfl h2
  refine ⟨recs, rfl, h2, ?_, hpt 0⟩
  rw [hlen]
  rfl

theorem mem_of_head?_eq (l : List Char) (c : Char) (h : l.head? = some c) : c ∈ l := by
  cases l with
  | nil => cases h
  | cons a t =>
    rw [List.head?_cons] at h
    cases h
    exact List.mem_cons_self _ _

theorem pyStrip_eq_self (s : String)
    (h1 : ∀ c ∈ s.data.head?, c.isWhitespace = false)
    (h2 : ∀ c ∈ s.data.getLast?, c.isWhitespace = false) : pyStrip s = s := by
  have hA : s.data.dropWhile Char.isWhitespace = s.data := by
    cases hd : s.data with
    | nil => rfl
    | cons c t =>
      have hc : c.isWhitespace = false := by
        apply h1
        rw [hd]
        rfl
      rw [List.dropWhile_cons, if_neg (by simp [hc])]
  have hB : s.data.reverse.dropWhile Char.isWhitespace = s.data.reverse := by
    cases hr : s.data.reverse with
    | nil => rfl
    | cons c t =>
      have hcl : s.data.getLast? = some c := by
        rw [← List.head?_reverse, hr]
        rfl
      have hc : c.isWhitespace = false := h2 c (by rw [hcl]; rfl)
      rw [List.dropWhile_cons, if_neg (by simp [hc])]
  unfold pyStrip
  rw [hA, hB, List.reverse_reverse]

theorem joinChars_ne_nil (l : List (List Char)) (h0 : l ≠ []) (hl : ∀ x ∈ l, x ≠ []) :
    joinChars l ≠ [] := by
  cases l with
  | nil => exact absurd rfl h0
  | cons w ws =>
    cases ws with
    | nil => exact hl w (List.mem_cons_self _ _)
    | cons x xs =>
      intro hcontra
      have hcontra' : w ++ ' ' :: joinChars (x :: xs) = [] := hcontra
      rcases List.append_eq_nil.mp hcontra' with ⟨-, h2⟩
      exact List.cons_ne_nil _ _ h2

theorem joinChars_head (w : List Char) (ws : List (List Char)) (hw : w ≠ []) :
    (joinChars (w :: ws)).head? = w.head? := by
  cases ws with
  | nil => rfl
  | cons x xs =>
    cases w with
    | nil => exact absurd rfl hw
    | cons c t => rfl

theorem joinChars_getLast (w : List Char) (ws : List (List Char))
    (hws : ∀ x ∈ w :: ws, x ≠ []) :
    ∃ x ∈ w :: ws, (joinChars (w :: ws)).getLast? = x.getLast? := by
  induction ws generalizing w with
  | nil => exact ⟨w, List.mem_cons_self _ _, rfl⟩
  | cons x xs ih =>
    obtain ⟨y, hy, hlast⟩ := ih x (fun z hz => hws z (List.mem_cons_of_mem _ hz))
    refine ⟨y, List.mem_cons_of_mem _ hy, ?_⟩
    show (w ++ ' ' :: joinChars (x :: xs)).getLast? = y.getLast?
    rw [List.getLast?_append_of_ne_nil _ (List.cons_ne_nil _ _)]
    have hJ : joinChars (x :: xs) ≠ [] :=
      joinChars_ne_nil (x :: xs) (List.cons_ne_nil _ _)
        (fun z hz => hws z (List.mem_cons_of_mem _ hz))
    rw [show (' ' :: joinChars (x :: xs)) = [' '] ++ joinChars (x :: xs) from rfl,
        List.getLast?_append_of_ne_nil _ hJ]
    exact hlast

theorem pyStrip_joinSpace (l : List String) (hl : ∀ w ∈ l, wsFree w) :
    pyStrip (joinSpace l) = joinSpace l := by
  cases l with
  | nil => rfl
  | cons w ws =>
    have hne : ∀ x ∈ w.data :: ws.map String.data, x ≠ [] := by
      intro x hx
      rcases List.mem_cons.mp hx with rfl | hx'
      · exact (hl w (List.mem_cons_self _ _)).1
      · obtain ⟨y, hy, rfl⟩ := List.mem_map.mp hx'
        exact (hl y (List.mem_cons_of_mem _ hy)).1
    apply pyStrip_eq_self
    · intro c hc
      have hc0 : (joinChars (w.data :: ws.map String.data)).head? = some c := hc
      rw [joinChars_head w.data (ws.map String.data)
        (hl w (List.mem_cons_self _ _)).1] at hc0
      exact (hl w (List.mem_cons_self _ _)).2 c (mem_of_head?_eq _ c hc0)
    · intro c hc
      have hc0 : (joinChars (w.data :: ws.map String.data)).getLast? = some c := hc
      obtain ⟨x, hx, hlast⟩ := joinChars_getLast w.data (ws.map String.data) hne
      rw [hlast] at hc0
      have hcx : c ∈ x := List.mem_of_mem_getLast? hc0
      rcases List.mem_cons.mp hx with rfl | hx'
      · exact (hl w (List.mem_cons_self _ _)).2 c hcx
      · obtain ⟨y, hy, rfl⟩ := List.mem_map.mp hx'
        exact (hl y (List.mem_cons_of_mem _ hy)).2 c hcx

theorem wordsAux_wsFree (cs : List Char) : ∀ acc, (∀ c ∈ acc, c.isWhitespace = false) →
    ∀ w ∈ wordsAux acc cs, wsFree w := by
  induction cs with
  | nil =>
    intro acc hacc w hw
    rw [wordsAux] at hw
    by_cases ha : acc = []
    · rw [if_pos ha] at hw
      cases hw
    · rw [if_neg ha] at hw
      rw [List.mem_singleton] at hw
      subst hw
      refine ⟨?_, ?_⟩
      · show acc.reverse ≠ []
        simp only [ne_eq, List.reverse_eq_nil_iff]
        exact ha
      · intro d hd
        have hd' : d ∈ acc.reverse := hd
        exact hacc d (List.mem_reverse.mp hd')
  | cons c cs ih =>
    intro acc hacc w hw
    rw [wordsAux] at hw
    by_cases hwsc : c.isWhitespace = true
    · rw [if_pos hwsc] at hw
      by_cases ha : acc = []
      · rw [if_pos ha] at hw
        exact ih [] (by intro d hd; cases hd) w hw
      · rw [if_neg ha] at hw
        rcases List.mem_cons.mp hw with rfl | hw'
        · refine ⟨?_, ?_⟩
          · show acc.reverse ≠ []
            simp only [ne_eq, List.reverse_eq_nil_iff]
            exact ha
          · intro d hd
            have hd' : d ∈ acc.reverse := hd
            exact hacc d (List.mem_reverse.mp hd')
        · exact ih [] (by intro d hd; cases hd) w hw'
    · rw [if_neg hwsc] at hw
      refine ih (c :: acc) ?_ w hw
      intro d hd
      rcases List.mem_cons.mp hd with rfl | hd'
      · exact Bool.eq_false_iff.mpr hwsc
      · exact hacc d hd'

theorem splitWs_wsFree (s : String) : ∀ w ∈ splitWs s, wsFree w :=
  wordsAux_wsFree s.data [] (by intro c hc; cases hc)

theorem dedupeAux_subset (l : List String) : ∀ seen w, w ∈ dedupeAux seen l → w ∈ l := by
  induction l with
  | nil =>
    intro seen w hw
    cases hw
  | cons t ts ih =>
    intro seen w hw
    rw [dedupeAux] at hw
    by_cases hseen : t ∈ seen
    · rw [if_pos hseen] at hw
      exact List.mem_cons_of_mem _ (ih seen w hw)
    · rw [if_neg hseen] at hw
      rcases List.mem_cons.mp hw with rfl | hw'
      · exact List.mem_cons_self _ _
      · exact List.mem_cons_of_mem _ (ih _ w hw')

theorem dedupe_tokens_subset (l : List String) (w : String) (hw : w ∈ dedupe_tokens l) :
    w ∈ l :=
  dedupeAux_subset l [] w hw

theorem extractLoop_eq_none (ts : List String) : ∀ acc,
    firstMatchIdx isStudentId ts = none → extractLoop acc ts = ("", "") := by
  induction ts with
  | nil =>
    intro acc _
    rfl
  | cons t rest ih =>
    intro acc hf
    rw [firstMatchIdx] at hf
    by_cases hm : isStudentId t = true
    · rw [if_pos hm] at hf
      cases hf
    · rw [if_neg hm] at hf
      rw [Option.map_eq_none'] at hf
      rw [extractLoop, if_neg hm]
      exact ih (acc ++ [t]) hf

theorem extractLoop_eq_some (ts : List String) : ∀ acc i,
    firstMatchIdx isStudentId ts = some i →
    extractLoop acc ts = (ts.getD i "",
      pyStrip (joinSpace (dedupe_tokens
        (if (acc ++ ts.take i).length < (ts.drop (i + 1)).length
         then ts.drop (i + 1) else acc ++ ts.take i)))) := by
  induction ts with
  | nil =>
    intro acc i hf
    cases hf
  | cons t rest ih =>
    intro acc i hf
    rw [firstMatchIdx] at hf
    by_cases hm : isStudentId t = true
    · rw [if_pos hm] at hf
      cases hf
      rw [extractLoop, if_pos hm]
      simp only [List.take_zero, List.append_nil, List.drop_succ_cons, List.drop_zero,
        List.getD_cons_zero]
      have hcand : (if rest.length > acc.length then rest
          else if rest.length = acc.length then acc else acc)
          = (if acc.length < rest.length then rest else acc) := by
        by_cases hlt : acc.length < rest.length
        · rw [if_pos hlt, if_pos hlt]
        · rw [if_neg hlt, if_neg hlt, ite_self]
      rw [hcand]
    · rw [if_neg hm] at hf
      rw [Option.map_eq_some'] at hf
      obtain ⟨i', hf', rfl⟩ := hf
      rw [extractLoop, if_neg hm]
      rw [ih (acc ++ [t]) i' hf']
      rw [List.take_succ_cons, List.drop_succ_cons, List.getD_cons_succ,
          show acc ++ t :: rest.take i' = (acc ++ [t]) ++ rest.take i' from
            (List.append_assoc acc [t] (rest.take i')).symm]

/-- Claim C1: the field extractor agrees everywhere with the claim's
description — tokens are the whitespace-split non-empty words, the
identifier is the first token matching the two-letter six-digit pattern
(empty results when none matches), and the name joins the deduplicated
tokens of the strictly longer side (left side on ties) with single
spaces. -/
theorem extract_matches_spec (activity : String) :
    extract_student_fields activity = extractSpec activity := by
  unfold extract_student_fields extractSpec
  cases hf : firstMatchIdx isStudentId (splitWs activity) with
  | none => rw [extractLoop_eq_none _ [] hf, extractSpecAux]
  | some i =>
    rw [extractLoop_eq_some _ [] i hf, extractSpecAux]
    simp only [List.nil_append]
    congr 1
    apply pyStrip_joinSpace
    intro w hw
    apply splitWs_wsFree
    have hw' := dedupe_tokens_subset _ w hw
    split at hw'
    · exact List.mem_of_mem_drop hw'
    · exact List.mem_of_mem_take hw'

end Timesheet
